import Mathlib

/-!
Verification development for the photon-emission simulation (`main.py`).

The Python source is shallowly embedded: float arithmetic is modelled over ℝ,
`random.random()` and `axis()` draws are modelled by oracle streams consumed in
call order, mutation of `Photon` objects becomes explicit state passing, and
the `-1` sentinel returned by `Photon.blit` becomes `Option Photon`
(`none` = photon destroyed).
-/

namespace PhotonSim

open Classical

/-- 2D point, `Point` dataclass from the source (floats modelled as ℝ). -/
structure Point where
  x : ℝ
  y : ℝ

/-- `Point.distance`: `math.dist((self.x, self.y), (other.x, other.y))`,
the Euclidean distance. -/
noncomputable def Point.distance (a b : Point) : ℝ :=
  Real.sqrt ((a.x - b.x) ^ 2 + (a.y - b.y) ^ 2)

/-- `pygame.math.Vector2` as used by the source (only construction and
`reflect` are used). -/
structure Vec2 where
  x : ℝ
  y : ℝ

/-- `pygame.math.Vector2.reflect`: pygame computes
`d = 2*(v.x*n.x + v.y*n.y)/(n.x*n.x + n.y*n.y)` and returns `v - d*n`,
i.e. the standard reflection about the axis `n`, dividing by the squared
length of the (not pre-normalised) normal. -/
noncomputable def Vec2.reflect (v n : Vec2) : Vec2 :=
  let d : ℝ := 2 * (v.x * n.x + v.y * n.y) / (n.x * n.x + n.y * n.y)
  ⟨v.x - d * n.x, v.y - d * n.y⟩

/-- `math.atan2 y x`, modelled as the argument of the complex number
`x + y*I` (the same piecewise-arctan definition). -/
noncomputable def atan2 (y x : ℝ) : ℝ :=
  Complex.arg ⟨x, y⟩

/-- Oracle state for the two kinds of random draws in the source:
`uni n` is the n-th value returned by `random.random()` (a draw in `[0,1)`),
`jit n` is the n-th value returned by `axis()`
(= `random.uniform(-axis_value, axis_value)`).  The counters record how many
draws of each kind have been consumed, so draws are consumed in call order
exactly as in the source (in particular, a short-circuited `or` consumes no
draw). -/
structure RNG where
  uni : ℕ → ℝ
  jit : ℕ → ℝ
  uIdx : ℕ
  jIdx : ℕ

/-- Consume the next `random.random()` draw. -/
def RNG.nextUni (r : RNG) : ℝ × RNG :=
  (r.uni r.uIdx, { r with uIdx := r.uIdx + 1 })

/-- Consume the next `axis()` draw. -/
def RNG.nextJit (r : RNG) : ℝ × RNG :=
  (r.jit r.jIdx, { r with jIdx := r.jIdx + 1 })

/-- A photon: `Photon.__init__` fields `coord`, `angle`, `n_reflections`
(the drawing surface is rendering plumbing and carries no simulation state). -/
structure Photon where
  coord : Point
  angle : ℝ
  n_reflections : ℕ

/-- `Photon.__init__`: a freshly constructed photon has `n_reflections = 0`. -/
def Photon.init (coord : Point) (angle : ℝ) : Photon :=
  ⟨coord, angle, 0⟩

/-- The 8-entry fade palette `Photon.colors`. -/
def Photon.colors : List String :=
  ["white", "purple", "blue", "aqua", "green", "yellow", "orange", "red"]

/-- The colour looked up when painting a photon:
`self.colors[self.n_reflections]`.  Python raises `IndexError` out of range,
modelled by `Option`. -/
def Photon.paintColor (p : Photon) : Option String :=
  Photon.colors.get? p.n_reflections

/-- The geometric data of a circle figure (`Circle.mid`, `Circle.radius`;
the radius is an `int` in the source). -/
structure CircleData where
  mid : Point
  radius : ℤ

/-- `Circle.collide`: `self.mid.distance(p) <= self.radius`. -/
def CircleData.collide (c : CircleData) (p : Point) : Prop :=
  c.mid.distance p ≤ (c.radius : ℝ)

/-- `Circle.compute_photon` with absorption probability `prob`
(`Circle.ate_probability`): absorb (return `none`) when
`self.mid.distance(p.coord) <= self.radius - 1 or random.random() < prob`
(the Python `or` short-circuits, so the uniform draw is consumed only when
the distance test fails); otherwise reflect the heading vector about the raw
center-to-photon vector and set the new heading to
`atan2(reflection.y, reflection.x) + axis()`. -/
noncomputable def CircleData.compute_photon (prob : ℝ) (c : CircleData)
    (p : Photon) (r : RNG) : Option Photon × RNG :=
  if c.mid.distance p.coord ≤ (c.radius : ℝ) - 1 then (none, r)
  else
    let u := r.nextUni
    if u.1 < prob then (none, u.2)
    else
      let r_vec : Vec2 := ⟨p.coord.x - c.mid.x, p.coord.y - c.mid.y⟩
      let p_vec : Vec2 := ⟨Real.cos p.angle, Real.sin p.angle⟩
      let reflection := p_vec.reflect r_vec
      let j := u.2.nextJit
      (some { p with angle := atan2 reflection.y reflection.x + j.1 }, j.2)

/-- Global configuration read by the simulation each frame: the class
attributes `Circle.ate_probability`, `PhotonSource.frequency`,
`PhotonSource.rays_step`, and the display size `d_w`, `d_h`. -/
structure Config where
  ate_probability : ℝ
  frequency : ℕ
  rays_step : ℕ
  d_w : ℝ
  d_h : ℝ

/-- The collision loop of `Photon.blit`: iterate over `Figure.__objects__`
(every figure in this program is a circle, so the registry is modelled by the
circle geometry of its entries, in order).  For each figure that collides,
apply `compute_photon`; on absorption return destroyed; otherwise increment
`n_reflections` and destroy the photon when it reaches
`len(self.colors) = 8`.  There is no `break`: the loop continues with the
remaining figures. -/
noncomputable def blitLoop (prob : ℝ) (figs : List CircleData)
    (p : Photon) (r : RNG) : Option Photon × RNG :=
  match figs with
  | [] => (some p, r)
  | f :: rest =>
    if f.collide p.coord then
      match f.compute_photon prob p r with
      | (none, r1) => (none, r1)
      | (some p1, r1) =>
        let p2 := { p1 with n_reflections := p1.n_reflections + 1 }
        if 8 ≤ p2.n_reflections then (none, r1)
        else blitLoop prob rest p2 r1
    else blitLoop prob rest p r

/-- `Photon.blit`: advance the position by one unit along the heading, each
axis perturbed by `axis()/2` (x first, then y, consuming two jitter draws);
destroy the photon if the new position leaves `[0, d_w] × [0, d_h]`
(no collision test that frame); otherwise run the collision loop.
`none` models the `-1` return, `some` the surviving (mutated) photon. -/
noncomputable def Photon.blit (cfg : Config) (figs : List CircleData)
    (p : Photon) (r : RNG) : Option Photon × RNG :=
  let j1 := r.nextJit
  let j2 := j1.2.nextJit
  let c : Point := ⟨p.coord.x + Real.cos p.angle + j1.1 / 2,
                    p.coord.y + Real.sin p.angle + j2.1 / 2⟩
  let p1 : Photon := { p with coord := c }
  if 0 ≤ c.x ∧ c.x ≤ cfg.d_w ∧ 0 ≤ c.y ∧ c.y ≤ cfg.d_h then
    blitLoop cfg.ate_probability figs p1 j2.2
  else (none, j2.2)

/-- `PhotonSource.move_photons`, modelled with Python iteration semantics:
`for p in self.photons: if p.blit() == -1: self.photons.remove(p)` iterates by
an internal index over the list *as it is being mutated*.  After processing
index `i`, the cursor is `i + 1`; when the element at `i` was removed (every
photon object occurs at most once in the list, so `remove` deletes exactly
index `i`), the former element `i + 1` has shifted into slot `i` and is
skipped.  The recursion carries the cursor and the current list. -/
noncomputable def movePhotonsFrom (cfg : Config) (figs : List CircleData) :
    ℕ → List Photon → RNG → List Photon × RNG
  | i, l, r =>
    if h : i < l.length then
      match Photon.blit cfg figs (l.get ⟨i, h⟩) r with
      | (none, r1) => movePhotonsFrom cfg figs (i + 1) (l.eraseIdx i) r1
      | (some p1, r1) => movePhotonsFrom cfg figs (i + 1) (l.set i p1) r1
    else (l, r)
termination_by i l _ => l.length + 1 - i
decreasing_by
  · simp only [List.length_eraseIdx, h, if_true]
    omega
  · simp only [List.length_set]
    omega

/-- `PhotonSource.move_photons`: run the iteration from cursor 0. -/
noncomputable def move_photons (cfg : Config) (figs : List CircleData)
    (l : List Photon) (r : RNG) : List Photon × RNG :=
  movePhotonsFrom cfg figs 0 l r

/-- The degree values produced by `range(0, 360, step)` for `step > 0`:
`0, step, 2*step, …` while below 360; the count is `⌈360/step⌉`,
i.e. `(360 + step - 1) / step` in natural division. -/
def raysDegrees (step : ℕ) : List ℕ :=
  (List.range ((360 + step - 1) / step)).map (· * step)

/-- The generation built by `PhotonSource.generate_photons`: for each degree
value `a` the heading is `math.pi * a / 180 + axis()` (one jitter draw per
photon, consumed in list order) and the photon starts at
`(mid.x + (radius+1)*cos θ, mid.y + (radius+1)*sin θ + 1)` — note the stray
`+ 1` on the y coordinate, taken verbatim from the source. -/
noncomputable def genPhotonsAux (mid : Point) (radius : ℤ) :
    List ℕ → RNG → List Photon × RNG
  | [], r => ([], r)
  | a :: rest, r =>
    let j := r.nextJit
    let θ : ℝ := Real.pi * (a : ℝ) / 180 + j.1
    let ph : Photon := Photon.init
      ⟨mid.x + ((radius : ℝ) + 1) * Real.cos θ,
       mid.y + ((radius : ℝ) + 1) * Real.sin θ + 1⟩ θ
    let rec' := genPhotonsAux mid radius rest j.2
    (ph :: rec'.1, rec'.2)

/-- The per-instance state of a `PhotonSource` that `emit` uses:
the inherited circle geometry plus `ticks` and `enabled`.
(`frequency` and `rays_step` are class attributes, held in `Config`.) -/
structure SourceState where
  mid : Point
  radius : ℤ
  activated_movement : Bool
  ticks : ℕ
  enabled : Bool

/-- `PhotonSource.emit`: increment `ticks`; when `ticks % frequency == 0`,
spawn a generation (appended to the photon list) if `enabled`, and reset
`ticks` to 0; in every case run `move_photons` afterwards.  `photons` is the
list the instance observes (the class-level list, see `Scene`). -/
noncomputable def emit (cfg : Config) (figs : List CircleData)
    (E : SourceState) (photons : List Photon) (r : RNG) :
    SourceState × List Photon × RNG :=
  let t := E.ticks + 1
  if t % cfg.frequency = 0 then
    if E.enabled then
      let g := genPhotonsAux E.mid E.radius (raysDegrees cfg.rays_step) r
      ({ E with ticks := 0 }, move_photons cfg figs (photons ++ g.1) g.2)
    else
      ({ E with ticks := 0 }, move_photons cfg figs photons r)
  else
    ({ E with ticks := t }, move_photons cfg figs photons r)

/-- A scene of emitters.  In the source, `photons: list[Photon] = []` is a
*class* attribute of `PhotonSource`; `self.photons += [...]` calls
`list.__iadd__`, which extends the class-level list object in place (and
rebinds `self.photons` to that same object), and `self.photons.clear()` /
`self.photons.remove(p)` also mutate it in place.  No statement ever rebinds
the attribute to a fresh list, so at all times every `PhotonSource` instance
observes the one class-level list, modelled here by the single field
`photons`. -/
structure Scene where
  sources : List SourceState
  photons : List Photon

/-- The photon collection observed by the source at index `i`: attribute
lookup `self.photons` on any instance resolves to the single class-level
list (see `Scene`). -/
def ownedPhotons (sc : Scene) (_i : ℕ) : List Photon :=
  sc.photons

/-- `generate_photons` invoked on the source at index `i` of the scene:
the new generation is appended (in place) to the class-level list. -/
noncomputable def generateOn (sc : Scene) (i : ℕ) (cfg : Config) (r : RNG) :
    Scene × RNG :=
  match sc.sources.get? i with
  | none => (sc, r)
  | some E =>
    let g := genPhotonsAux E.mid E.radius (raysDegrees cfg.rays_step) r
    ({ sc with photons := sc.photons ++ g.1 }, g.2)

/-- Keys distinguished by the listeners: `pygame.K_r`, `pygame.K_c`,
anything else. -/
inductive Key
  | kR
  | kC
  | other
deriving DecidableEq

/-- The pygame events consumed by the listeners: `MOUSEMOTION` (with `pos`),
`MOUSEBUTTONDOWN` (with `pos` and `button`), `MOUSEBUTTONUP` (with
`button`; the listeners do not read its position), `MOUSEWHEEL` (with `y`)
and `KEYDOWN` (with the key). -/
inductive Ev
  | motion (pos : Point)
  | down (pos : Point) (button : ℕ)
  | up (button : ℕ)
  | wheel (y : ℤ)
  | key (k : Key)

/-- Whether an event is the KeyPress of the R key. -/
def Ev.isKR : Ev → Bool
  | .key .kR => true
  | _ => false

/-- The circle-figure state mutated by `Circle.listen`. -/
structure CircleState where
  mid : Point
  radius : ℤ
  activated_movement : Bool

/-- Collision test on raw geometry (`Circle.collide` inlined for the
listeners). -/
def hits (mid : Point) (radius : ℤ) (p : Point) : Prop :=
  mid.distance p ≤ (radius : ℝ)

/-- `Circle.listen`: process the frame's events in order.  Drag follows
motion while `activated_movement`; left button down over the circle starts a
drag; left button up ends it; a wheel tick with the pointer (the polled
mouse position, modelled by the `mouse` parameter) over the circle resizes
with `max 5 (radius + 5*y)`; a KEYDOWN of R with the pointer over the circle
removes the figure from its class registry and from `Figure.__objects__`
(both modelled as lists of figure identities, `remove` deleting the first
occurrence) and returns immediately. -/
noncomputable def circleListen (self : ℕ) (mouse : Point) :
    List Ev → CircleState → List ℕ → List ℕ →
    CircleState × List ℕ × List ℕ
  | [], st, figReg, clsReg => (st, figReg, clsReg)
  | e :: rest, st, figReg, clsReg =>
    match e with
    | .motion pos =>
      let st1 := if st.activated_movement then { st with mid := pos } else st
      circleListen self mouse rest st1 figReg clsReg
    | .down pos b =>
      let st1 := if hits st.mid st.radius pos ∧ b = 1 then
          { st with activated_movement := true } else st
      circleListen self mouse rest st1 figReg clsReg
    | .up b =>
      let st1 := if st.activated_movement ∧ b = 1 then
          { st with activated_movement := false } else st
      circleListen self mouse rest st1 figReg clsReg
    | .wheel y =>
      let st1 := if hits st.mid st.radius mouse then
          { st with radius := max 5 (st.radius + 5 * y) } else st
      circleListen self mouse rest st1 figReg clsReg
    | .key k =>
      if k = Key.kR ∧ hits st.mid st.radius mouse then
        (st, figReg.erase self, clsReg.erase self)
      else circleListen self mouse rest st figReg clsReg

/-- The circle-figure part of a `SourceState`. -/
def SourceState.circle (st : SourceState) : CircleState :=
  ⟨st.mid, st.radius, st.activated_movement⟩

/-- Replace the circle-figure part of a `SourceState`. -/
def SourceState.withCircle (st : SourceState) (c : CircleState) : SourceState :=
  { st with mid := c.mid, radius := c.radius,
            activated_movement := c.activated_movement }

/-- The explicit event loop of `PhotonSource.listen`: right button down over
the source toggles `enabled`; KEYDOWN of C clears the photon list (in
place); KEYDOWN of R returns immediately (flag `true`), skipping the rest of
the list and the inherited `Circle.listen`. -/
noncomputable def sourceListenLoop (mouse : Point) :
    List Ev → SourceState → List Photon →
    SourceState × List Photon × Bool
  | [], st, ph => (st, ph, false)
  | e :: rest, st, ph =>
    match e with
    | .down pos b =>
      let st1 := if b = 3 ∧ hits st.mid st.radius pos then
          { st with enabled := !st.enabled } else st
      sourceListenLoop mouse rest st1 ph
    | .key Key.kC => sourceListenLoop mouse rest st []
    | .key Key.kR => (st, ph, true)
    | _ => sourceListenLoop mouse rest st ph

/-- `PhotonSource.listen`: run the explicit loop; if it returned early (an R
KeyPress was reached) stop there, otherwise fall through to
`super().listen(events)`, i.e. `Circle.listen` over the whole event list. -/
noncomputable def sourceListen (self : ℕ) (mouse : Point) (events : List Ev)
    (st : SourceState) (ph : List Photon) (figReg clsReg : List ℕ) :
    SourceState × List Photon × List ℕ × List ℕ :=
  match sourceListenLoop mouse events st ph with
  | (st1, ph1, true) => (st1, ph1, figReg, clsReg)
  | (st1, ph1, false) =>
    let c := circleListen self mouse events st1.circle figReg clsReg
    (st1.withCircle c.1, ph1, c.2.1, c.2.2)

/-- A concrete oracle: every `random.random()` draw is `1/2` (a legal value
in `[0,1)`) and every `axis()` draw is `0` (the value forced by
`axis_value = 0`, i.e. zero jitter). -/
noncomputable def rngHalf : RNG :=
  ⟨fun _ => 1 / 2, fun _ => 0, 0, 0⟩

/-! ## Theorems -/

/-- Distances are square roots, hence nonnegative. -/
theorem distance_nonneg (a b : Point) : 0 ≤ a.distance b :=
  Real.sqrt_nonneg _

/-- Evaluate a concrete distance from the square of its value. -/
theorem distance_eval {a b : Point} {r : ℝ} (hr : 0 ≤ r)
    (h : (a.x - b.x) ^ 2 + (a.y - b.y) ^ 2 = r ^ 2) : a.distance b = r := by
  unfold Point.distance
  rw [h, Real.sqrt_sq hr]

/-- Compare a distance with a nonnegative bound via squares. -/
theorem distance_le_iff {a b : Point} {r : ℝ} (hr : 0 ≤ r) :
    a.distance b ≤ r ↔ (a.x - b.x) ^ 2 + (a.y - b.y) ^ 2 ≤ r ^ 2 :=
  Real.sqrt_le_left hr

/-- Strictly bound a distance from below via squares. -/
theorem lt_distance_iff {a b : Point} {r : ℝ} (hr : 0 ≤ r) :
    r < a.distance b ↔ r ^ 2 < (a.x - b.x) ^ 2 + (a.y - b.y) ^ 2 :=
  Real.lt_sqrt hr

/-- Claim C1, counterexample: on the circle centered at the origin with
radius 2, a photon at distance exactly `radius - 1 = 1` from the center
collides and is absorbed by `compute_photon` even though the absorption
probability is 0 and the pending uniform draw `1/2` is not below it — the
inner-zone test in the source is `<= radius - 1`, not strictly within. -/
theorem claim_C1_counterexample :
    CircleData.collide ⟨⟨0, 0⟩, 2⟩ ⟨1, 0⟩ ∧
    (CircleData.compute_photon 0 ⟨⟨0, 0⟩, 2⟩ (Photon.init ⟨1, 0⟩ 0) rngHalf).1
      = none ∧
    ¬((Point.distance ⟨0, 0⟩ ⟨1, 0⟩ < ((2 : ℤ) : ℝ) - 1) ∨
        rngHalf.uni 0 < (0 : ℝ)) := by
  have hd : Point.distance ⟨0, 0⟩ ⟨1, 0⟩ = 1 :=
    distance_eval (by norm_num) (by norm_num)
  refine ⟨?_, ?_, ?_⟩
  · show Point.distance ⟨0, 0⟩ ⟨1, 0⟩ ≤ (((2 : ℤ) : ℝ))
    rw [hd]; norm_num
  · unfold CircleData.compute_photon
    rw [if_pos]
    show Point.distance ⟨0, 0⟩ ⟨1, 0⟩ ≤ (((2 : ℤ) : ℝ)) - 1
    rw [hd]; norm_num
  · rw [hd]
    simp only [rngHalf]
    norm_num

/-- Claim C1, amended: `compute_photon` returns Absorbed iff the photon lies
within `radius - 1` of the center *inclusive* (`<=`, not strictly within) or
the pending uniform draw is below the absorption probability; otherwise it
returns the photon with heading set to `atan2` of the reflection of its
heading vector about the raw center-to-photon vector, plus the jitter draw;
and with absorption probability 0 and a nonnegative draw, every collision at
distance strictly greater than `radius - 1` yields Reflected, never
Absorbed. -/
theorem claim_C1_amended (prob : ℝ) (c : CircleData) (p : Photon) (r : RNG) :
    ((c.compute_photon prob p r).1 = none ↔
      (c.mid.distance p.coord ≤ (c.radius : ℝ) - 1 ∨ r.uni r.uIdx < prob)) ∧
    (¬(c.mid.distance p.coord ≤ (c.radius : ℝ) - 1 ∨ r.uni r.uIdx < prob) →
      (c.compute_photon prob p r).1 = some
        ⟨p.coord,
         atan2 (Vec2.reflect ⟨Real.cos p.angle, Real.sin p.angle⟩
                  ⟨p.coord.x - c.mid.x, p.coord.y - c.mid.y⟩).y
               (Vec2.reflect ⟨Real.cos p.angle, Real.sin p.angle⟩
                  ⟨p.coord.x - c.mid.x, p.coord.y - c.mid.y⟩).x
           + r.jit r.jIdx,
         p.n_reflections⟩) ∧
    (prob = 0 → 0 ≤ r.uni r.uIdx →
      (c.radius : ℝ) - 1 < c.mid.distance p.coord →
      (c.compute_photon prob p r).1 ≠ none) := by
  unfold CircleData.compute_photon RNG.nextUni RNG.nextJit
  by_cases h1 : c.mid.distance p.coord ≤ (c.radius : ℝ) - 1
  · refine ⟨by simp [h1], fun hn => absurd (Or.inl h1) hn, ?_⟩
    intro _ _ hlt
    exact absurd h1 (not_le.mpr hlt)
  · by_cases h2 : r.uni r.uIdx < prob
    · refine ⟨by simp [h1, h2], fun hn => absurd (Or.inr h2) hn, ?_⟩
      intro hp hu _
      rw [hp] at h2
      exact absurd h2 (not_lt.mpr hu)
    · refine ⟨by simp [h1, h2], fun _ => by simp [h1, h2], ?_⟩
      intro _ _ _
      simp [h1, h2]

/-- Witness for the amended C1: a photon colliding with the radius-2 circle
at distance 2 (outside the inner zone) with absorption probability 0 and
draw `1/2` is not absorbed. -/
theorem claim_C1_witness :
    (CircleData.compute_photon 0 ⟨⟨0, 0⟩, 2⟩ (Photon.init ⟨2, 0⟩ 0) rngHalf).1
      ≠ none := by
  refine (claim_C1_amended 0 ⟨⟨0, 0⟩, 2⟩ (Photon.init ⟨2, 0⟩ 0) rngHalf).2.2
    rfl (by norm_num [rngHalf]) ?_
  have hd : Point.distance ⟨0, 0⟩ ⟨2, 0⟩ = 2 :=
    distance_eval (by norm_num) (by norm_num)
  show ((2 : ℤ) : ℝ) - 1 < Point.distance ⟨0, 0⟩ ⟨2, 0⟩
  rw [hd]; norm_num

/-- Claim C7, counterexample: reflecting the unit heading `(1,0)` about the
raw axis `(3,4)` (length 5, as for a radius-5 obstacle) gives exactly the
same vector as reflecting about the normalised axis `(3/5, 4/5)`: the pygame
reflection formula already divides by the squared length of the axis, so the
non-normalised center-to-photon vector does not change the outcome,
contradicting the claimed radius-dependent bias. -/
theorem claim_C7_counterexample :
    Vec2.reflect ⟨1, 0⟩ ⟨3, 4⟩ = Vec2.reflect ⟨1, 0⟩ ⟨3 / 5, 4 / 5⟩ := by
  unfold Vec2.reflect
  rw [Vec2.mk.injEq]
  norm_num

/-- Claim C7, amended: the collision code does use the formula
`v - 2(v·n)n/|n|²` with the raw, non-normalised center-to-photon vector as
`n` — but that formula is invariant under any nonzero scaling of `n`, so the
reflected vector coincides with the one obtained from the normalised normal
and no radius-dependent bias exists. -/
theorem claim_C7_amended (v n : Vec2) (t : ℝ) (ht : t ≠ 0) :
    Vec2.reflect v ⟨t * n.x, t * n.y⟩ = Vec2.reflect v n := by
  unfold Vec2.reflect
  rw [Vec2.mk.injEq]
  by_cases h : n.x * n.x + n.y * n.y = 0
  · have hx : n.x = 0 := by nlinarith [mul_self_nonneg n.x, mul_self_nonneg n.y]
    have hy : n.y = 0 := by nlinarith [mul_self_nonneg n.x, mul_self_nonneg n.y]
    constructor <;> simp [hx, hy]
  · have e1 : t * n.x * (t * n.x) + t * n.y * (t * n.y)
        = t ^ 2 * (n.x * n.x + n.y * n.y) := by ring
    rw [e1]
    have h2 : t ^ 2 * (n.x * n.x + n.y * n.y) ≠ 0 :=
      mul_ne_zero (pow_ne_zero 2 ht) h
    constructor <;> (field_simp; ring)

/-- Witness for the amended C7: scaling the normalised axis `(3/5, 4/5)` by
5 (the obstacle radius) leaves the reflection of `(1,0)` unchanged. -/
theorem claim_C7_witness :
    Vec2.reflect ⟨1, 0⟩ ⟨5 * (3 / 5), 5 * (4 / 5)⟩
      = Vec2.reflect ⟨1, 0⟩ ⟨3 / 5, 4 / 5⟩ :=
  claim_C7_amended ⟨1, 0⟩ ⟨3 / 5, 4 / 5⟩ 5 (by norm_num)

/-- Erasing one occurrence of `a` from a list of identifiers decrements the
count of `a` by one and leaves the count of every other entry unchanged. -/
theorem count_erase_spec (l : List ℕ) (a : ℕ) :
    (l.erase a).count a = l.count a - 1 ∧
    ∀ o : ℕ, o ≠ a → (l.erase a).count o = l.count o := by
  induction l with
  | nil => simp
  | cons b rest ih =>
    by_cases hb : b = a
    · subst hb
      refine ⟨?_, ?_⟩
      · simp [List.erase_cons_head, List.count_cons_self]
      · intro o ho
        simp [List.erase_cons_head, List.count_cons_of_ne ho]
    · rw [List.erase_cons_tail (by simp [hb])]
      refine ⟨?_, ?_⟩
      · rw [List.count_cons_of_ne (by simp [Ne.symm hb]),
          List.count_cons_of_ne (by simp [Ne.symm hb])]
        exact ih.1
      · intro o ho
        by_cases hob : o = b
        · subst hob
          rw [List.count_cons_self, List.count_cons_self, ih.2 o ho]
        · rw [List.count_cons_of_ne (by simp [hob]),
            List.count_cons_of_ne (by simp [hob])]
          exact ih.2 o ho

/-- Step equation of `circleListen` on a key event. -/
theorem circleListen_key (self : ℕ) (mouse : Point) (k : Key) (rest : List Ev)
    (st : CircleState) (fr cr : List ℕ) :
    circleListen self mouse (Ev.key k :: rest) st fr cr
      = if k = Key.kR ∧ hits st.mid st.radius mouse then
          (st, fr.erase self, cr.erase self)
        else circleListen self mouse rest st fr cr := rfl

/-- `Circle.listen` leaves both registries untouched when the event list
contains no KeyPress of R. -/
theorem circleListen_reg_of_no_kR (self : ℕ) (mouse : Point) :
    ∀ (events : List Ev) (st : CircleState) (fr cr : List ℕ),
    Ev.key Key.kR ∉ events →
    (circleListen self mouse events st fr cr).2 = (fr, cr) := by
  intro events
  induction events with
  | nil =>
    intro st fr cr _
    rfl
  | cons e rest ih =>
    intro st fr cr hmem
    have hrest : Ev.key Key.kR ∉ rest := fun h =>
      hmem (List.mem_cons_of_mem _ h)
    cases e with
    | motion pos => exact ih _ fr cr hrest
    | down pos b => exact ih _ fr cr hrest
    | up b => exact ih _ fr cr hrest
    | wheel y => exact ih _ fr cr hrest
    | key k =>
      have hk : k ≠ Key.kR := by
        rintro rfl
        exact hmem (List.mem_cons_self _ _)
      rw [circleListen_key, if_neg (fun hc => hk hc.1)]
      exact ih _ fr cr hrest

/-- The explicit loop of `PhotonSource.listen` reports no early return only
when the event list contains no KeyPress of R. -/
theorem sourceListenLoop_no_kR (mouse : Point) :
    ∀ (events : List Ev) (st : SourceState) (ph : List Photon),
    (sourceListenLoop mouse events st ph).2.2 = false →
    Ev.key Key.kR ∉ events := by
  intro events
  induction events with
  | nil =>
    intro st ph _ hmem
    simp at hmem
  | cons e rest ih =>
    intro st ph hflag hmem
    cases e with
    | motion pos => exact ih _ _ hflag (by simpa using hmem)
    | down pos b =>
      exact ih _ _ hflag (by simpa using hmem)
    | up b => exact ih _ _ hflag (by simpa using hmem)
    | wheel y => exact ih _ _ hflag (by simpa using hmem)
    | key k =>
      cases k with
      | kR => simp [sourceListenLoop] at hflag
      | kC =>
        have : Ev.key Key.kR ∈ rest := by
          rcases List.mem_cons.mp hmem with h | h
          · exact absurd h (by simp)
          · exact h
        exact ih _ _ hflag this
      | other =>
        have : Ev.key Key.kR ∈ rest := by
          rcases List.mem_cons.mp hmem with h | h
          · exact absurd h (by simp)
          · exact h
        exact ih _ _ hflag this

/-- Claim C8: (a) `PhotonSource.listen` never changes the registries — in
particular a delete request (KeyPress R, wherever the pointer is) on an
Emitter is rejected with membership and size unchanged, because the handler
returns before the inherited `Circle.listen` deletion can run; (b) a delete
request on a non-emitter circle with the pointer over it erases that circle
from both registries; (c) erasing removes exactly one occurrence of that
obstacle and leaves the count of every other entry in place. -/
theorem claim_C8 :
    (∀ (self : ℕ) (mouse : Point) (events : List Ev) (st : SourceState)
        (ph : List Photon) (figReg clsReg : List ℕ),
      (sourceListen self mouse events st ph figReg clsReg).2.2
        = (figReg, clsReg)) ∧
    (∀ (self : ℕ) (mouse : Point) (st : CircleState) (figReg clsReg : List ℕ),
      hits st.mid st.radius mouse →
      circleListen self mouse [Ev.key Key.kR] st figReg clsReg
        = (st, figReg.erase self, clsReg.erase self)) ∧
    (∀ (self : ℕ) (figReg : List ℕ), figReg.count self = 1 →
      (figReg.erase self).count self = 0 ∧
      ∀ o : ℕ, o ≠ self → (figReg.erase self).count o = figReg.count o) := by
  refine ⟨?_, ?_, ?_⟩
  · intro self mouse events st ph figReg clsReg
    unfold sourceListen
    rcases hloop : sourceListenLoop mouse events st ph with ⟨st1, ph1, flag⟩
    cases flag with
    | true => simp [hloop]
    | false =>
      have hnk : Ev.key Key.kR ∉ events :=
        sourceListenLoop_no_kR mouse events st ph (by rw [hloop])
      have hreg := circleListen_reg_of_no_kR self mouse events
        st1.circle figReg clsReg hnk
      rcases hc : circleListen self mouse events st1.circle figReg clsReg
        with ⟨c1, r1, r2⟩
      rw [hc] at hreg
      simp at hreg
      simp [hloop, hc, hreg.1, hreg.2]
  · intro self mouse st figReg clsReg hhit
    rw [circleListen_key, if_pos ⟨rfl, hhit⟩]
  · intro self figReg hcount
    refine ⟨?_, (count_erase_spec figReg self).2⟩
    rw [(count_erase_spec figReg self).1, hcount]

/-- Witness for C8: with the pointer at the center of a radius-5 circle
(identity 0) and both registries `[0, 1]`, a delete request removes exactly
entry 0; and `PhotonSource.listen` on the same event leaves the registries
of the emitter untouched. -/
theorem claim_C8_witness :
    (sourceListen 0 ⟨0, 0⟩ [Ev.key Key.kR] ⟨⟨0, 0⟩, 5, false, 0, true⟩ []
        [0, 1] [0, 1]).2.2 = ([0, 1], [0, 1]) ∧
    circleListen 0 ⟨0, 0⟩ [Ev.key Key.kR] ⟨⟨0, 0⟩, 5, false⟩ [0, 1] [0, 1]
      = (⟨⟨0, 0⟩, 5, false⟩, [1], [1]) ∧
    ([0, 1] : List ℕ).count 0 = 1 ∧
    (([0, 1] : List ℕ).erase 0).count 0 = 0 := by
  have hhit : hits (⟨0, 0⟩ : Point) (5 : ℤ) ⟨0, 0⟩ := by
    show Point.distance ⟨0, 0⟩ ⟨0, 0⟩ ≤ ((5 : ℤ) : ℝ)
    rw [distance_eval (le_refl (0 : ℝ)) (by norm_num)]
    norm_num
  refine ⟨claim_C8.1 0 ⟨0, 0⟩ [Ev.key Key.kR] ⟨⟨0, 0⟩, 5, false, 0, true⟩ []
      [0, 1] [0, 1], ?_, by decide, ?_⟩
  · rw [claim_C8.2.1 0 ⟨0, 0⟩ ⟨⟨0, 0⟩, 5, false⟩ [0, 1] [0, 1] hhit]
    rfl
  · exact (claim_C8.2.2 0 [0, 1] (by decide)).1

/-- Processing the explicit loop of `PhotonSource.listen` never changes the
inherited circle state (center, radius, drag flag). -/
theorem sourceListenLoop_circle (mouse : Point) :
    ∀ (events : List Ev) (st : SourceState) (ph : List Photon),
    (sourceListenLoop mouse events st ph).1.circle = st.circle := by
  intro events
  induction events with
  | nil =>
    intro st ph
    rfl
  | cons e rest ih =>
    intro st ph
    cases e with
    | motion pos => exact ih st ph
    | down pos b =>
      show (sourceListenLoop mouse rest
        (if b = 3 ∧ hits st.mid st.radius pos then
          { st with enabled := !st.enabled } else st) ph).1.circle = st.circle
      by_cases hb : b = 3 ∧ hits st.mid st.radius pos
      · rw [if_pos hb, ih]
        rfl
      · rw [if_neg hb, ih]
    | up b => exact ih st ph
    | wheel y => exact ih st ph
    | key k =>
      cases k with
      | kR => rfl
      | kC => exact ih st []
      | other => exact ih st ph

/-- On an event list containing a KeyPress of R, the explicit loop of
`PhotonSource.listen` behaves exactly as on the prefix before the first such
event, and reports the early return. -/
theorem sourceListenLoop_kR (mouse : Point) :
    ∀ (events : List Ev) (st : SourceState) (ph : List Photon),
    Ev.key Key.kR ∈ events →
    sourceListenLoop mouse events st ph
      = ((sourceListenLoop mouse (events.takeWhile (fun e => !e.isKR)) st ph).1,
         (sourceListenLoop mouse (events.takeWhile (fun e => !e.isKR)) st ph).2.1,
         true) := by
  intro events
  induction events with
  | nil =>
    intro st ph hmem
    simp at hmem
  | cons e rest ih =>
    intro st ph hmem
    cases e with
    | motion pos =>
      have : Ev.key Key.kR ∈ rest := by simpa using hmem
      simpa [sourceListenLoop, Ev.isKR, List.takeWhile] using ih st ph this
    | down pos b =>
      have : Ev.key Key.kR ∈ rest := by simpa using hmem
      simpa [sourceListenLoop, Ev.isKR, List.takeWhile] using ih _ ph this
    | up b =>
      have : Ev.key Key.kR ∈ rest := by simpa using hmem
      simpa [sourceListenLoop, Ev.isKR, List.takeWhile] using ih st ph this
    | wheel y =>
      have : Ev.key Key.kR ∈ rest := by simpa using hmem
      simpa [sourceListenLoop, Ev.isKR, List.takeWhile] using ih st ph this
    | key k =>
      cases k with
      | kR => simp [sourceListenLoop, Ev.isKR, List.takeWhile]
      | kC =>
        have : Ev.key Key.kR ∈ rest := by
          rcases List.mem_cons.mp hmem with h | h
          · exact absurd h (by simp)
          · exact h
        simpa [sourceListenLoop, Ev.isKR, List.takeWhile] using ih st [] this
      | other =>
        have : Ev.key Key.kR ∈ rest := by
          rcases List.mem_cons.mp hmem with h | h
          · exact absurd h (by simp)
          · exact h
        simpa [sourceListenLoop, Ev.isKR, List.takeWhile] using ih st ph this

/-- Claim C10: when the event list delivered to `PhotonSource.listen`
contains a KeyPress of R (wherever the pointer is), the handler returns
before the inherited `Circle.listen` runs: the registries are returned
unchanged, the emitter's center, radius and drag flag are unchanged, and the
toggle and clear effects are exactly those of the events preceding the first
KeyPress of R. -/
theorem claim_C10 (self : ℕ) (mouse : Point) (events : List Ev)
    (st : SourceState) (ph : List Photon) (figReg clsReg : List ℕ)
    (hmem : Ev.key Key.kR ∈ events) :
    sourceListen self mouse events st ph figReg clsReg
      = ((sourceListenLoop mouse (events.takeWhile (fun e => !e.isKR)) st ph).1,
         (sourceListenLoop mouse (events.takeWhile (fun e => !e.isKR)) st ph).2.1,
         figReg, clsReg) ∧
    (sourceListen self mouse events st ph figReg clsReg).1.circle
      = st.circle := by
  have hloop := sourceListenLoop_kR mouse events st ph hmem
  constructor
  · unfold sourceListen
    rw [hloop]
  · unfold sourceListen
    rw [hloop]
    exact sourceListenLoop_circle mouse _ st ph

/-- Witness for C10: a toggle (right click on the emitter), then the R key,
then a wheel event: the listener applies only the toggle, keeps registries
and circle state, and never reaches the wheel resize. -/
theorem claim_C10_witness :
    sourceListen 0 ⟨0, 0⟩
        [Ev.down ⟨0, 0⟩ 3, Ev.key Key.kR, Ev.wheel 1]
        ⟨⟨0, 0⟩, 5, false, 0, true⟩ [] [0] [0]
      = ((sourceListenLoop ⟨0, 0⟩
            (([Ev.down ⟨0, 0⟩ 3, Ev.key Key.kR, Ev.wheel 1]).takeWhile
              (fun e => !e.isKR))
            ⟨⟨0, 0⟩, 5, false, 0, true⟩ []).1,
         (sourceListenLoop ⟨0, 0⟩
            (([Ev.down ⟨0, 0⟩ 3, Ev.key Key.kR, Ev.wheel 1]).takeWhile
              (fun e => !e.isKR))
            ⟨⟨0, 0⟩, 5, false, 0, true⟩ []).2.1,
         [0], [0]) ∧
    (sourceListen 0 ⟨0, 0⟩
        [Ev.down ⟨0, 0⟩ 3, Ev.key Key.kR, Ev.wheel 1]
        ⟨⟨0, 0⟩, 5, false, 0, true⟩ [] [0] [0]).1.circle
      = SourceState.circle ⟨⟨0, 0⟩, 5, false, 0, true⟩ :=
  claim_C10 0 ⟨0, 0⟩ [Ev.down ⟨0, 0⟩ 3, Ev.key Key.kR, Ev.wheel 1]
    ⟨⟨0, 0⟩, 5, false, 0, true⟩ [] [0] [0] (by simp)

/-- Step equation: the collision loop on an empty registry survives. -/
theorem blitLoop_nil (prob : ℝ) (p : Photon) (r : RNG) :
    blitLoop prob [] p r = (some p, r) := rfl

/-- Step equation of the collision loop on a nonempty registry. -/
theorem blitLoop_cons (prob : ℝ) (f : CircleData) (rest : List CircleData)
    (p : Photon) (r : RNG) :
    blitLoop prob (f :: rest) p r
      = if f.collide p.coord then
          match f.compute_photon prob p r with
          | (none, r1) => (none, r1)
          | (some p1, r1) =>
            if 8 ≤ p1.n_reflections + 1 then (none, r1)
            else blitLoop prob rest
              { p1 with n_reflections := p1.n_reflections + 1 } r1
        else blitLoop prob rest p r := rfl

/-- A reflected photon keeps its position and reflection count:
`compute_photon` only mutates the heading. -/
theorem compute_photon_some (prob : ℝ) (c : CircleData) (p : Photon) (r : RNG)
    {p1 : Photon} {r1 : RNG} (h : c.compute_photon prob p r = (some p1, r1)) :
    p1.coord = p.coord ∧ p1.n_reflections = p.n_reflections := by
  unfold CircleData.compute_photon at h
  split at h
  · exact absurd h (by simp)
  · dsimp only at h
    split at h
    · exact absurd h (by simp)
    · injection h with h1 h2
      injection h1 with h1
      subst h1
      exact ⟨rfl, rfl⟩

/-- Through the collision loop a surviving photon's reflection count never
decreases and stays at most `max (initial count) 7`. -/
theorem blitLoop_invariant (prob : ℝ) :
    ∀ (figs : List CircleData) (p : Photon) (r : RNG) (q : Photon) (r' : RNG),
    blitLoop prob figs p r = (some q, r') →
    p.n_reflections ≤ q.n_reflections ∧
    q.n_reflections ≤ max p.n_reflections 7 := by
  intro figs
  induction figs with
  | nil =>
    intro p r q r' h
    rw [blitLoop_nil] at h
    injection h with h1 h2
    injection h1 with h1
    subst h1
    exact ⟨le_rfl, le_max_left _ _⟩
  | cons f rest ih =>
    intro p r q r' h
    rw [blitLoop_cons] at h
    by_cases hc : f.collide p.coord
    · rw [if_pos hc] at h
      split at h
      · exact absurd h (by simp)
      · rename_i p1 r1 hcp
        obtain ⟨hco, hn⟩ := compute_photon_some prob f p r hcp
        split at h
        · exact absurd h (by simp)
        · rename_i h8
          have hi := ih _ _ _ _ h
          have hi1 : p1.n_reflections + 1 ≤ q.n_reflections := hi.1
          have hi2 : q.n_reflections ≤ max (p1.n_reflections + 1) 7 := hi.2
          constructor
          · omega
          · have h7 : p1.n_reflections + 1 ≤ 7 := by omega
            have hq7 : q.n_reflections ≤ 7 :=
              le_trans hi2 (max_le h7 le_rfl)
            exact le_trans hq7 (le_max_right _ _)
    · rw [if_neg hc] at h
      exact ih _ _ _ _ h

/-- A colliding photon that already carries 7 reflections never survives the
collision loop: either it is absorbed, or the increment reaches the palette
length 8 and destroys it. -/
theorem blitLoop_at_bound (prob : ℝ) (f : CircleData) (rest : List CircleData)
    (p : Photon) (r : RNG) (hc : f.collide p.coord)
    (h7 : 7 ≤ p.n_reflections) :
    (blitLoop prob (f :: rest) p r).1 = none := by
  rw [blitLoop_cons, if_pos hc]
  split
  · rfl
  · rename_i p1 r1 hcp
    obtain ⟨hco, hn⟩ := compute_photon_some prob f p r hcp
    have h8 : 8 ≤ p1.n_reflections + 1 := by omega
    rw [if_pos h8]

/-- Surviving a single-obstacle collision increments the reflection count by
exactly one. -/
theorem blitLoop_single_collision (prob : ℝ) (f : CircleData) (p : Photon)
    (r : RNG) (q : Photon) (r' : RNG) (hc : f.collide p.coord)
    (h : blitLoop prob [f] p r = (some q, r')) :
    q.n_reflections = p.n_reflections + 1 := by
  rw [blitLoop_cons, if_pos hc] at h
  split at h
  · exact absurd h (by simp)
  · rename_i p1 r1 hcp
    obtain ⟨hco, hn⟩ := compute_photon_some prob f p r hcp
    split at h
    · exact absurd h (by simp)
    · rw [blitLoop_nil] at h
      injection h with h1 h2
      injection h1 with h1
      subst h1
      show p1.n_reflections + 1 = p.n_reflections + 1
      omega

/-- The collision loop survives unchanged when no registry entry collides. -/
theorem blitLoop_no_collision (prob : ℝ) :
    ∀ (figs : List CircleData) (p : Photon) (r : RNG),
    (∀ f ∈ figs, ¬ f.collide p.coord) →
    blitLoop prob figs p r = (some p, r) := by
  intro figs
  induction figs with
  | nil => intro p r _; rfl
  | cons f rest ih =>
    intro p r hn
    rw [blitLoop_cons, if_neg (hn f (List.mem_cons_self _ _))]
    exact ih p r fun g hg => hn g (List.mem_cons_of_mem _ hg)

/-- `Photon.blit` when the advanced position stays in bounds: two jitter
draws are consumed for the motion and the collision loop runs on the moved
photon. -/
theorem blit_step (cfg : Config) (figs : List CircleData) (p : Photon)
    (r : RNG) (c : Point)
    (hc : c = ⟨p.coord.x + Real.cos p.angle + r.jit r.jIdx / 2,
               p.coord.y + Real.sin p.angle + r.jit (r.jIdx + 1) / 2⟩)
    (hb : 0 ≤ c.x ∧ c.x ≤ cfg.d_w ∧ 0 ≤ c.y ∧ c.y ≤ cfg.d_h) :
    Photon.blit cfg figs p r
      = blitLoop cfg.ate_probability figs ⟨c, p.angle, p.n_reflections⟩
          ⟨r.uni, r.jit, r.uIdx, r.jIdx + 2⟩ := by
  subst hc
  unfold Photon.blit RNG.nextJit
  rw [if_pos hb]

/-- `Photon.blit` when the advanced position leaves the canvas: the photon
is destroyed with no collision test. -/
theorem blit_step_out (cfg : Config) (figs : List CircleData) (p : Photon)
    (r : RNG) (c : Point)
    (hc : c = ⟨p.coord.x + Real.cos p.angle + r.jit r.jIdx / 2,
               p.coord.y + Real.sin p.angle + r.jit (r.jIdx + 1) / 2⟩)
    (hb : ¬(0 ≤ c.x ∧ c.x ≤ cfg.d_w ∧ 0 ≤ c.y ∧ c.y ≤ cfg.d_h)) :
    Photon.blit cfg figs p r
      = (none, ⟨r.uni, r.jit, r.uIdx, r.jIdx + 2⟩) := by
  subst hc
  unfold Photon.blit RNG.nextJit
  rw [if_neg hb]

/-- Claim C5: a photon starts with reflection count 0; the count never
decreases across a surviving advance; starting at most 7 it stays at most 7
and the palette lookup used for painting the survivor is a valid index into
the 8-entry palette; each surviving collision increments the count by
exactly 1; and a colliding photon already at the bound 7 is destroyed. -/
theorem claim_C5 :
    (∀ (c : Point) (a : ℝ), (Photon.init c a).n_reflections = 0) ∧
    (∀ (cfg : Config) (figs : List CircleData) (p : Photon) (r : RNG)
        (q : Photon) (r' : RNG),
      Photon.blit cfg figs p r = (some q, r') →
      p.n_reflections ≤ q.n_reflections ∧
      (p.n_reflections ≤ 7 →
        q.n_reflections ≤ 7 ∧ (Photon.paintColor q).isSome = true)) ∧
    (∀ (prob : ℝ) (f : CircleData) (p : Photon) (r : RNG) (q : Photon)
        (r' : RNG), f.collide p.coord →
      blitLoop prob [f] p r = (some q, r') →
      q.n_reflections = p.n_reflections + 1) ∧
    (∀ (prob : ℝ) (f : CircleData) (rest : List CircleData) (p : Photon)
        (r : RNG), f.collide p.coord → 7 ≤ p.n_reflections →
      (blitLoop prob (f :: rest) p r).1 = none) := by
  refine ⟨fun _ _ => rfl, ?_, blitLoop_single_collision, blitLoop_at_bound⟩
  intro cfg figs p r q r' h
  unfold Photon.blit at h
  dsimp only at h
  split at h
  · have hinv := blitLoop_invariant cfg.ate_probability figs _ _ _ _ h
    refine ⟨hinv.1, fun h7 => ?_⟩
    have hq7 : q.n_reflections ≤ 7 := by
      have := hinv.2
      simp only at this
      omega
    refine ⟨hq7, ?_⟩
    have hlen : q.n_reflections < Photon.colors.length := by
      simp only [Photon.colors, List.length]
      omega
    unfold Photon.paintColor
    rw [List.get?_eq_get hlen]
    rfl
  · exact absurd h (by simp)

/-- `atan2 0 (-1) = π`. -/
theorem atan2_zero_neg_one : atan2 0 (-1) = Real.pi := by
  unfold atan2
  have h : (⟨-1, 0⟩ : ℂ) = -1 := by
    apply Complex.ext <;> simp
  rw [h, Complex.arg_neg_one]

/-- `atan2 0 1 = 0`. -/
theorem atan2_zero_one : atan2 0 1 = 0 := by
  unfold atan2
  have h : (⟨1, 0⟩ : ℂ) = 1 := by
    apply Complex.ext <;> simp
  rw [h, Complex.arg_one]

/-- The point `(9.5, 0)` collides with the radius-10 circle at the origin. -/
theorem hitsA : CircleData.collide ⟨⟨0, 0⟩, 10⟩ ⟨9.5, 0⟩ := by
  show Point.distance ⟨0, 0⟩ ⟨9.5, 0⟩ ≤ ((10 : ℤ) : ℝ)
  rw [distance_eval (by norm_num : (0 : ℝ) ≤ 9.5) (by norm_num)]
  norm_num

/-- The point `(9.5, 0)` collides with the radius-10 circle at `(19, 0)`. -/
theorem hitsB : CircleData.collide ⟨⟨19, 0⟩, 10⟩ ⟨9.5, 0⟩ := by
  show Point.distance ⟨19, 0⟩ ⟨9.5, 0⟩ ≤ ((10 : ℤ) : ℝ)
  rw [distance_eval (by norm_num : (0 : ℝ) ≤ 9.5) (by norm_num)]
  norm_num

/-- Interaction of the radius-10 circle at the origin with a photon at
`(9.5, 0)` heading right (angle 0), probability 0, oracle draws `1/2` and 0:
the photon is reflected straight back (angle π). -/
theorem computeA_eval (nr ui ji : ℕ) :
    CircleData.compute_photon 0 ⟨⟨0, 0⟩, 10⟩ (⟨⟨9.5, 0⟩, 0, nr⟩ : Photon)
        ⟨rngHalf.uni, rngHalf.jit, ui, ji⟩
      = (some ⟨⟨9.5, 0⟩, Real.pi, nr⟩,
         ⟨rngHalf.uni, rngHalf.jit, ui + 1, ji + 1⟩) := by
  have hd : Point.distance ⟨0, 0⟩ ⟨9.5, 0⟩ = 9.5 :=
    distance_eval (by norm_num) (by norm_num)
  unfold CircleData.compute_photon
  rw [if_neg (by rw [show Point.distance (⟨0, 0⟩ : Point) ⟨9.5, 0⟩
        = (9.5 : ℝ) from hd]; norm_num)]
  dsimp only [RNG.nextUni, RNG.nextJit]
  rw [if_neg (by norm_num [rngHalf])]
  refine congrArg₂ Prod.mk (congrArg some ?_) rfl
  have hx : (Vec2.reflect ⟨Real.cos 0, Real.sin 0⟩ ⟨9.5 - 0, 0 - 0⟩).x
      = -1 := by
    simp only [Vec2.reflect]
    norm_num
  have hy : (Vec2.reflect ⟨Real.cos 0, Real.sin 0⟩ ⟨9.5 - 0, 0 - 0⟩).y
      = 0 := by
    simp only [Vec2.reflect]
    norm_num
  rw [Photon.mk.injEq]
  refine ⟨rfl, ?_, rfl⟩
  rw [hx, hy, atan2_zero_neg_one]
  simp [rngHalf]

/-- Interaction of the radius-10 circle at `(19, 0)` with a photon at
`(9.5, 0)` heading left (angle π), probability 0, oracle draws `1/2` and 0:
the photon is reflected straight back (angle 0). -/
theorem computeB_eval (nr ui ji : ℕ) :
    CircleData.compute_photon 0 ⟨⟨19, 0⟩, 10⟩ (⟨⟨9.5, 0⟩, Real.pi, nr⟩ : Photon)
        ⟨rngHalf.uni, rngHalf.jit, ui, ji⟩
      = (some ⟨⟨9.5, 0⟩, 0, nr⟩,
         ⟨rngHalf.uni, rngHalf.jit, ui + 1, ji + 1⟩) := by
  have hd : Point.distance ⟨19, 0⟩ ⟨9.5, 0⟩ = 9.5 :=
    distance_eval (by norm_num) (by norm_num)
  unfold CircleData.compute_photon
  rw [if_neg (by rw [show Point.distance (⟨19, 0⟩ : Point) ⟨9.5, 0⟩
        = (9.5 : ℝ) from hd]; norm_num)]
  dsimp only [RNG.nextUni, RNG.nextJit]
  rw [if_neg (by norm_num [rngHalf])]
  refine congrArg₂ Prod.mk (congrArg some ?_) rfl
  have hx : (Vec2.reflect ⟨Real.cos Real.pi, Real.sin Real.pi⟩
        ⟨9.5 - 19, 0 - 0⟩).x = 1 := by
    simp only [Vec2.reflect, Real.cos_pi, Real.sin_pi]
    norm_num
  have hy : (Vec2.reflect ⟨Real.cos Real.pi, Real.sin Real.pi⟩
        ⟨9.5 - 19, 0 - 0⟩).y = 0 := by
    simp only [Vec2.reflect, Real.cos_pi, Real.sin_pi]
    norm_num
  rw [Photon.mk.injEq]
  refine ⟨rfl, ?_, rfl⟩
  rw [hx, hy, atan2_zero_one]
  simp [rngHalf]

/-- The collision loop over the single origin circle: one surviving
reflection. -/
theorem loopA_eval :
    blitLoop 0 [⟨⟨0, 0⟩, 10⟩] (⟨⟨9.5, 0⟩, 0, 0⟩ : Photon) rngHalf
      = (some ⟨⟨9.5, 0⟩, Real.pi, 1⟩, ⟨rngHalf.uni, rngHalf.jit, 1, 1⟩) := by
  rw [blitLoop_cons, if_pos hitsA,
    show (rngHalf : RNG) = ⟨rngHalf.uni, rngHalf.jit, 0, 0⟩ from rfl,
    computeA_eval 0 0 0]
  dsimp only
  rw [if_neg (by norm_num), blitLoop_nil]

/-- The collision loop over both overlapping circles: the photon survives
both interactions, its heading is reflected twice (back to 0) and its
reflection count rises by 2 in the single frame. -/
theorem loopAB_eval :
    blitLoop 0 [⟨⟨0, 0⟩, 10⟩, ⟨⟨19, 0⟩, 10⟩] (⟨⟨9.5, 0⟩, 0, 0⟩ : Photon)
        ⟨rngHalf.uni, rngHalf.jit, 0, 2⟩
      = (some ⟨⟨9.5, 0⟩, 0, 2⟩, ⟨rngHalf.uni, rngHalf.jit, 2, 4⟩) := by
  rw [blitLoop_cons, if_pos hitsA, computeA_eval 0 0 2]
  dsimp only
  rw [if_neg (by norm_num)]
  rw [blitLoop_cons, if_pos hitsB, computeB_eval 1 1 3]
  dsimp only
  rw [if_neg (by norm_num), blitLoop_nil]

/-- One full advance of a photon at `(8.5, 0)` heading right, canvas
100×100, registry holding the two overlapping radius-10 circles, zero
jitter: the photon moves to `(9.5, 0)`, survives both collisions, and ends
the frame with reflection count 2 and heading 0. -/
theorem blitAB_eval :
    Photon.blit ⟨0, 20, 2, 100, 100⟩ [⟨⟨0, 0⟩, 10⟩, ⟨⟨19, 0⟩, 10⟩]
        (Photon.init ⟨8.5, 0⟩ 0) rngHalf
      = (some ⟨⟨9.5, 0⟩, 0, 2⟩, ⟨rngHalf.uni, rngHalf.jit, 2, 4⟩) := by
  rw [blit_step ⟨0, 20, 2, 100, 100⟩ _ _ _ ⟨9.5, 0⟩
    (by rw [Point.mk.injEq]; constructor <;> norm_num [Photon.init, rngHalf])
    (by norm_num)]
  exact loopAB_eval

/-- Claim C3, counterexample: with two overlapping radius-10 obstacles both
containing the advanced position `(9.5, 0)`, a single `Photon.blit` applies
BOTH interactions: the reflection count rises from 0 to 2 in one frame and
the heading is changed again by the second obstacle (back to 0 after the
first set it to π), because the collision loop in the source has no break. -/
theorem claim_C3_counterexample :
    (Photon.blit ⟨0, 20, 2, 100, 100⟩ [⟨⟨0, 0⟩, 10⟩, ⟨⟨19, 0⟩, 10⟩]
        (Photon.init ⟨8.5, 0⟩ 0) rngHalf).1
      = some ⟨⟨9.5, 0⟩, 0, 2⟩ ∧
    CircleData.collide ⟨⟨0, 0⟩, 10⟩ ⟨9.5, 0⟩ ∧
    CircleData.collide ⟨⟨19, 0⟩, 10⟩ ⟨9.5, 0⟩ ∧
    (2 : ℕ) ≠ 1 := by
  refine ⟨?_, hitsA, hitsB, by norm_num⟩
  rw [blitAB_eval]

/-- Claim C3, amended: during one advance, EVERY colliding obstacle in
registry order applies its interaction in the same frame (the loop has no
break): a photon that survives the frame keeps its position and its
reflection count grows by exactly the number of colliding obstacles in the
registry, not by at most one. -/
theorem claim_C3_amended (prob : ℝ) :
    ∀ (figs : List CircleData) (p : Photon) (r : RNG) (q : Photon) (r' : RNG),
    blitLoop prob figs p r = (some q, r') →
    q.coord = p.coord ∧
    q.n_reflections = p.n_reflections
      + (figs.filter fun f => decide (f.collide p.coord)).length := by
  intro figs
  induction figs with
  | nil =>
    intro p r q r' h
    rw [blitLoop_nil] at h
    injection h with h1 h2
    injection h1 with h1
    subst h1
    simp
  | cons f rest ih =>
    intro p r q r' h
    rw [blitLoop_cons] at h
    by_cases hc : f.collide p.coord
    · rw [if_pos hc] at h
      split at h
      · exact absurd h (by simp)
      · rename_i p1 r1 hcp
        obtain ⟨hco, hn⟩ := compute_photon_some prob f p r hcp
        split at h
        · exact absurd h (by simp)
        · have hi := ih _ _ _ _ h
          have hico : q.coord = p.coord := by
            rw [hi.1]
            exact hco
          have hcoord2 :
              ({ p1 with n_reflections := p1.n_reflections + 1 }
                : Photon).coord = p.coord := hco
          refine ⟨hico, ?_⟩
          have hflt :
              (rest.filter fun g =>
                  decide (g.collide ({ p1 with
                    n_reflections := p1.n_reflections + 1 } : Photon).coord))
                = rest.filter fun g => decide (g.collide p.coord) := by
            rw [hcoord2]
          rw [List.filter_cons_of_pos (by exact decide_eq_true hc)]
          have hi2 := hi.2
          rw [hflt] at hi2
          have hproj : ({ p1 with n_reflections := p1.n_reflections + 1 }
              : Photon).n_reflections = p1.n_reflections + 1 := rfl
          rw [hproj] at hi2
          simp only [List.length_cons]
          omega
    · rw [if_neg hc] at h
      have hi := ih _ _ _ _ h
      refine ⟨hi.1, ?_⟩
      rw [List.filter_cons_of_neg (by simpa using hc)]
      exact hi.2

/-- Witness for the amended C3: in the two-obstacle frame of the
counterexample the reflection count grows by exactly the number of
colliding obstacles, namely 2. -/
theorem claim_C3_witness :
    ((⟨⟨9.5, 0⟩, 0, 2⟩ : Photon)).coord = ((⟨⟨9.5, 0⟩, 0, 0⟩ : Photon)).coord ∧
    ((⟨⟨9.5, 0⟩, 0, 2⟩ : Photon)).n_reflections
      = ((⟨⟨9.5, 0⟩, 0, 0⟩ : Photon)).n_reflections
        + (([⟨⟨0, 0⟩, 10⟩, ⟨⟨19, 0⟩, 10⟩] : List CircleData).filter
            fun f => decide (f.collide ((⟨⟨9.5, 0⟩, 0, 0⟩ : Photon)).coord)).length :=
  claim_C3_amended 0 [⟨⟨0, 0⟩, 10⟩, ⟨⟨19, 0⟩, 10⟩] ⟨⟨9.5, 0⟩, 0, 0⟩
    ⟨rngHalf.uni, rngHalf.jit, 0, 2⟩ ⟨⟨9.5, 0⟩, 0, 2⟩
    ⟨rngHalf.uni, rngHalf.jit, 2, 4⟩ loopAB_eval

/-- Witness for C5: a fresh photon has count 0; the photon surviving the
two-collision frame of `blitAB_eval` went from 0 to 2 reflections, stays
under the palette bound, and its paint colour lookup is valid; a
single-obstacle surviving collision increments the count from 0 to 1; a
colliding photon already at 7 reflections is destroyed. -/
theorem claim_C5_witness :
    (Photon.init ⟨0, 0⟩ 0).n_reflections = 0 ∧
    ((0 : ℕ) ≤ 2 ∧ ((2 : ℕ) ≤ 7 ∧
      (Photon.paintColor ⟨⟨9.5, 0⟩, 0, 2⟩).isSome = true)) ∧
    ((⟨⟨9.5, 0⟩, Real.pi, 1⟩ : Photon).n_reflections
      = ((⟨⟨9.5, 0⟩, 0, 0⟩ : Photon)).n_reflections + 1) ∧
    (blitLoop 0 [⟨⟨0, 0⟩, 10⟩] (⟨⟨9.5, 0⟩, 0, 7⟩ : Photon) rngHalf).1
      = none := by
  refine ⟨claim_C5.1 ⟨0, 0⟩ 0, ?_, ?_, ?_⟩
  · have h := claim_C5.2.1 ⟨0, 20, 2, 100, 100⟩
      [⟨⟨0, 0⟩, 10⟩, ⟨⟨19, 0⟩, 10⟩] (Photon.init ⟨8.5, 0⟩ 0) rngHalf
      ⟨⟨9.5, 0⟩, 0, 2⟩ ⟨rngHalf.uni, rngHalf.jit, 2, 4⟩ blitAB_eval
    exact ⟨h.1, h.2 (Nat.zero_le 7)⟩
  · exact claim_C5.2.2.1 0 ⟨⟨0, 0⟩, 10⟩ ⟨⟨9.5, 0⟩, 0, 0⟩ rngHalf
      ⟨⟨9.5, 0⟩, Real.pi, 1⟩ ⟨rngHalf.uni, rngHalf.jit, 1, 1⟩ hitsA loopA_eval
  · exact claim_C5.2.2.2 0 ⟨⟨0, 0⟩, 10⟩ [] ⟨⟨9.5, 0⟩, 0, 7⟩ rngHalf hitsA
      (le_refl 7)

/-- Unfolding equation of the iteration inside `move_photons`. -/
theorem movePhotonsFrom_eq (cfg : Config) (figs : List CircleData) (i : ℕ)
    (l : List Photon) (r : RNG) :
    movePhotonsFrom cfg figs i l r
      = if h : i < l.length then
          match Photon.blit cfg figs (l.get ⟨i, h⟩) r with
          | (none, r1) => movePhotonsFrom cfg figs (i + 1) (l.eraseIdx i) r1
          | (some p1, r1) => movePhotonsFrom cfg figs (i + 1) (l.set i p1) r1
        else (l, r) := by
  rw [movePhotonsFrom]

/-- Iteration past the end of the (current) list stops. -/
theorem movePhotonsFrom_done (cfg : Config) (figs : List CircleData) (i : ℕ)
    (l : List Photon) (r : RNG) (h : ¬ i < l.length) :
    movePhotonsFrom cfg figs i l r = (l, r) := by
  rw [movePhotonsFrom_eq, dif_neg h]

/-- A destroyed photon is removed at its index, and the cursor still moves
on — so the element that shifts into the freed slot is skipped. -/
theorem movePhotonsFrom_kill (cfg : Config) (figs : List CircleData) (i : ℕ)
    (l : List Photon) (r r1 : RNG) (h : i < l.length)
    (hb : Photon.blit cfg figs (l.get ⟨i, h⟩) r = (none, r1)) :
    movePhotonsFrom cfg figs i l r
      = movePhotonsFrom cfg figs (i + 1) (l.eraseIdx i) r1 := by
  rw [movePhotonsFrom_eq, dif_pos h, hb]

/-- A surviving photon is stored back (its mutation in place) and the cursor
moves on. -/
theorem movePhotonsFrom_keep (cfg : Config) (figs : List CircleData) (i : ℕ)
    (l : List Photon) (r : RNG) (p1 : Photon) (r1 : RNG) (h : i < l.length)
    (hb : Photon.blit cfg figs (l.get ⟨i, h⟩) r = (some p1, r1)) :
    movePhotonsFrom cfg figs i l r
      = movePhotonsFrom cfg figs (i + 1) (l.set i p1) r1 := by
  rw [movePhotonsFrom_eq, dif_pos h, hb]

/-- A photon at the origin heading left (angle π) leaves the 10×10 canvas on
its advance and is destroyed, consuming the two motion jitter draws. -/
theorem blitOut_eval (ui ji : ℕ) :
    Photon.blit ⟨0, 20, 2, 10, 10⟩ [] (Photon.init ⟨0, 0⟩ Real.pi)
        ⟨rngHalf.uni, rngHalf.jit, ui, ji⟩
      = (none, ⟨rngHalf.uni, rngHalf.jit, ui, ji + 2⟩) := by
  refine (blit_step_out ⟨0, 20, 2, 10, 10⟩ [] (Photon.init ⟨0, 0⟩ Real.pi)
    ⟨rngHalf.uni, rngHalf.jit, ui, ji⟩ ⟨-1, 0⟩ ?_ ?_).trans rfl
  · rw [Point.mk.injEq]
    constructor <;>
      norm_num [Photon.init, rngHalf, Real.cos_pi, Real.sin_pi]
  · norm_num

/-- Claim C4 (code bug): with two identical photons at the origin heading
left on a 10×10 canvas (empty registry, zero jitter), `move_photons` removes
the first photon (its advance leaves the canvas) but the in-place `remove`
during iteration makes the loop skip the second photon entirely: the final
collection is the second photon, unadvanced, even though its own advance
would also return Destroyed. -/
theorem claim_C4_failing :
    (move_photons ⟨0, 20, 2, 10, 10⟩ []
        [Photon.init ⟨0, 0⟩ Real.pi, Photon.init ⟨0, 0⟩ Real.pi] rngHalf).1
      = [Photon.init ⟨0, 0⟩ Real.pi] ∧
    (Photon.blit ⟨0, 20, 2, 10, 10⟩ [] (Photon.init ⟨0, 0⟩ Real.pi)
        rngHalf).1 = none := by
  constructor
  · unfold move_photons
    rw [show (rngHalf : RNG) = ⟨rngHalf.uni, rngHalf.jit, 0, 0⟩ from rfl]
    rw [movePhotonsFrom_kill ⟨0, 20, 2, 10, 10⟩ []
      0 [Photon.init ⟨0, 0⟩ Real.pi, Photon.init ⟨0, 0⟩ Real.pi]
      ⟨rngHalf.uni, rngHalf.jit, 0, 0⟩ ⟨rngHalf.uni, rngHalf.jit, 0, 2⟩
      (by simp) (blitOut_eval 0 0)]
    rw [show ([Photon.init ⟨0, 0⟩ Real.pi,
        Photon.init ⟨0, 0⟩ Real.pi] : List Photon).eraseIdx 0
      = [Photon.init ⟨0, 0⟩ Real.pi] from rfl]
    rw [movePhotonsFrom_done _ _ _ _ _ (by simp)]
  · rw [show (rngHalf : RNG) = ⟨rngHalf.uni, rngHalf.jit, 0, 0⟩ from rfl,
      blitOut_eval 0 0]

/-- `cos (3π/2) = 0`. -/
theorem cos_three_pi_div_two : Real.cos (3 * Real.pi / 2) = 0 := by
  have h : 3 * Real.pi / 2 = Real.pi + Real.pi / 2 := by ring
  rw [h, Real.cos_add]
  simp

/-- `sin (3π/2) = -1`. -/
theorem sin_three_pi_div_two : Real.sin (3 * Real.pi / 2) = -1 := by
  have h : 3 * Real.pi / 2 = Real.pi + Real.pi / 2 := by ring
  rw [h, Real.sin_add]
  simp

/-- Step equation: generation over no angles. -/
theorem genPhotonsAux_nil (mid : Point) (radius : ℤ) (r : RNG) :
    genPhotonsAux mid radius [] r = ([], r) := rfl

/-- Step equation: generation over one more angle consumes one jitter draw
and spawns one photon at the circumference point (with the verbatim `+ 1`
on y). -/
theorem genPhotonsAux_cons (mid : Point) (radius : ℤ) (a : ℕ)
    (rest : List ℕ) (r : RNG) :
    genPhotonsAux mid radius (a :: rest) r
      = ((Photon.init
            ⟨mid.x + ((radius : ℝ) + 1)
                * Real.cos (Real.pi * (a : ℝ) / 180 + r.jit r.jIdx),
             mid.y + ((radius : ℝ) + 1)
                * Real.sin (Real.pi * (a : ℝ) / 180 + r.jit r.jIdx) + 1⟩
            (Real.pi * (a : ℝ) / 180 + r.jit r.jIdx))
          :: (genPhotonsAux mid radius rest
                ⟨r.uni, r.jit, r.uIdx, r.jIdx + 1⟩).1,
         (genPhotonsAux mid radius rest ⟨r.uni, r.jit, r.uIdx, r.jIdx + 1⟩).2)
      := rfl

/-- A generation spawns one photon per angle. -/
theorem genPhotonsAux_length (mid : Point) (radius : ℤ) :
    ∀ (l : List ℕ) (r : RNG),
    (genPhotonsAux mid radius l r).1.length = l.length := by
  intro l
  induction l with
  | nil => intro r; rfl
  | cons a rest ih =>
    intro r
    rw [genPhotonsAux_cons]
    simp only [List.length_cons, ih]

/-- `range(0, 360, step)` has `⌈360/step⌉` entries. -/
theorem raysDegrees_length (s : ℕ) :
    (raysDegrees s).length = (360 + s - 1) / s := by
  unfold raysDegrees
  simp

/-- The spawn positions and headings of the C2 scenario generation: emitter
at `(400, 300)`, radius 5, 90° step, zero jitter.  Note every spawn point is
one unit below `center + (radius+1)·(cos θ, sin θ)`. -/
theorem gen_eval :
    genPhotonsAux ⟨400, 300⟩ 5 (raysDegrees 90) rngHalf
      = ([Photon.init ⟨406, 301⟩ 0,
          Photon.init ⟨400, 307⟩ (Real.pi / 2),
          Photon.init ⟨394, 301⟩ Real.pi,
          Photon.init ⟨400, 295⟩ (3 * Real.pi / 2)],
         ⟨rngHalf.uni, rngHalf.jit, 0, 4⟩) := by
  rw [show raysDegrees 90 = [0, 90, 180, 270] from rfl,
    genPhotonsAux_cons, genPhotonsAux_cons, genPhotonsAux_cons,
    genPhotonsAux_cons, genPhotonsAux_nil]
  have e90 : Real.pi * (90 : ℝ) / 180 = Real.pi / 2 := by ring
  have e180 : Real.pi * (180 : ℝ) / 180 = Real.pi := by ring
  have e270 : Real.pi * (270 : ℝ) / 180 = 3 * Real.pi / 2 := by ring
  simp only [rngHalf, Photon.init, add_zero]
  norm_num [e90, e180, e270, Real.cos_pi_div_two, Real.sin_pi_div_two,
    Real.cos_pi, Real.sin_pi, cos_three_pi_div_two, sin_three_pi_div_two,
    Prod.mk.injEq, List.cons.injEq, Photon.mk.injEq, Point.mk.injEq]

/-- Points whose squared distance from `(400, 300)` exceeds 25 do not
collide with the radius-5 emitter circle. -/
theorem no_hit_emitter (p : Point)
    (hp : 25 < (400 - p.x) ^ 2 + (300 - p.y) ^ 2) :
    ¬ CircleData.collide ⟨⟨400, 300⟩, 5⟩ p := by
  intro hcol
  have hle : Point.distance ⟨400, 300⟩ p ≤ (5 : ℝ) := by
    have h := hcol
    unfold CircleData.collide at h
    push_cast at h
    exact h
  have hlt : (5 : ℝ) < Point.distance ⟨400, 300⟩ p := by
    rw [lt_distance_iff (by norm_num : (0 : ℝ) ≤ 5)]
    norm_num
    exact hp
  linarith

/-- Advance of the 0° photon of the C2 scenario: moves one unit right, no
collision with the emitter. -/
theorem blitP0_eval (ui ji : ℕ) :
    Photon.blit ⟨0, 1, 90, 800, 600⟩ [⟨⟨400, 300⟩, 5⟩]
        (Photon.init ⟨406, 301⟩ 0) ⟨rngHalf.uni, rngHalf.jit, ui, ji⟩
      = (some ⟨⟨407, 301⟩, 0, 0⟩, ⟨rngHalf.uni, rngHalf.jit, ui, ji + 2⟩) := by
  have hstep := blit_step ⟨0, 1, 90, 800, 600⟩ [⟨⟨400, 300⟩, 5⟩]
    (Photon.init ⟨406, 301⟩ 0) ⟨rngHalf.uni, rngHalf.jit, ui, ji⟩ ⟨407, 301⟩
    (by rw [Point.mk.injEq]
        constructor <;> norm_num [Photon.init, rngHalf])
    (by norm_num)
  rw [hstep, blitLoop_cons,
    if_neg (no_hit_emitter ⟨407, 301⟩ (by norm_num)), blitLoop_nil]
  rfl

/-- Advance of the 90° photon of the C2 scenario. -/
theorem blitP1_eval (ui ji : ℕ) :
    Photon.blit ⟨0, 1, 90, 800, 600⟩ [⟨⟨400, 300⟩, 5⟩]
        (Photon.init ⟨400, 307⟩ (Real.pi / 2)) ⟨rngHalf.uni, rngHalf.jit, ui, ji⟩
      = (some ⟨⟨400, 308⟩, Real.pi / 2, 0⟩,
         ⟨rngHalf.uni, rngHalf.jit, ui, ji + 2⟩) := by
  have hstep := blit_step ⟨0, 1, 90, 800, 600⟩ [⟨⟨400, 300⟩, 5⟩]
    (Photon.init ⟨400, 307⟩ (Real.pi / 2))
    ⟨rngHalf.uni, rngHalf.jit, ui, ji⟩ ⟨400, 308⟩
    (by rw [Point.mk.injEq]
        constructor <;>
          norm_num [Photon.init, rngHalf, Real.cos_pi_div_two,
            Real.sin_pi_div_two])
    (by norm_num)
  rw [hstep, blitLoop_cons,
    if_neg (no_hit_emitter ⟨400, 308⟩ (by norm_num)), blitLoop_nil]
  rfl

/-- Advance of the 180° photon of the C2 scenario. -/
theorem blitP2_eval (ui ji : ℕ) :
    Photon.blit ⟨0, 1, 90, 800, 600⟩ [⟨⟨400, 300⟩, 5⟩]
        (Photon.init ⟨394, 301⟩ Real.pi) ⟨rngHalf.uni, rngHalf.jit, ui, ji⟩
      = (some ⟨⟨393, 301⟩, Real.pi, 0⟩,
         ⟨rngHalf.uni, rngHalf.jit, ui, ji + 2⟩) := by
  have hstep := blit_step ⟨0, 1, 90, 800, 600⟩ [⟨⟨400, 300⟩, 5⟩]
    (Photon.init ⟨394, 301⟩ Real.pi)
    ⟨rngHalf.uni, rngHalf.jit, ui, ji⟩ ⟨393, 301⟩
    (by rw [Point.mk.injEq]
        constructor <;>
          norm_num [Photon.init, rngHalf, Real.cos_pi, Real.sin_pi])
    (by norm_num)
  rw [hstep, blitLoop_cons,
    if_neg (no_hit_emitter ⟨393, 301⟩ (by norm_num)), blitLoop_nil]
  rfl

/-- Advance of the 270° photon of the C2 scenario. -/
theorem blitP3_eval (ui ji : ℕ) :
    Photon.blit ⟨0, 1, 90, 800, 600⟩ [⟨⟨400, 300⟩, 5⟩]
        (Photon.init ⟨400, 295⟩ (3 * Real.pi / 2))
        ⟨rngHalf.uni, rngHalf.jit, ui, ji⟩
      = (some ⟨⟨400, 294⟩, 3 * Real.pi / 2, 0⟩,
         ⟨rngHalf.uni, rngHalf.jit, ui, ji + 2⟩) := by
  have hstep := blit_step ⟨0, 1, 90, 800, 600⟩ [⟨⟨400, 300⟩, 5⟩]
    (Photon.init ⟨400, 295⟩ (3 * Real.pi / 2))
    ⟨rngHalf.uni, rngHalf.jit, ui, ji⟩ ⟨400, 294⟩
    (by rw [Point.mk.injEq]
        constructor <;>
          norm_num [Photon.init, rngHalf, cos_three_pi_div_two,
            sin_three_pi_div_two])
    (by norm_num)
  rw [hstep, blitLoop_cons,
    if_neg (no_hit_emitter ⟨400, 294⟩ (by norm_num)), blitLoop_nil]
  rfl

/-- Advancing the freshly spawned C2 generation: all four photons survive
and move one unit along their headings. -/
theorem moveGen_eval :
    move_photons ⟨0, 1, 90, 800, 600⟩ [⟨⟨400, 300⟩, 5⟩]
        [Photon.init ⟨406, 301⟩ 0, Photon.init ⟨400, 307⟩ (Real.pi / 2),
         Photon.init ⟨394, 301⟩ Real.pi,
         Photon.init ⟨400, 295⟩ (3 * Real.pi / 2)]
        ⟨rngHalf.uni, rngHalf.jit, 0, 4⟩
      = ([⟨⟨407, 301⟩, 0, 0⟩, ⟨⟨400, 308⟩, Real.pi / 2, 0⟩,
          ⟨⟨393, 301⟩, Real.pi, 0⟩, ⟨⟨400, 294⟩, 3 * Real.pi / 2, 0⟩],
         ⟨rngHalf.uni, rngHalf.jit, 0, 12⟩) := by
  unfold move_photons
  rw [movePhotonsFrom_keep ⟨0, 1, 90, 800, 600⟩ [⟨⟨400, 300⟩, 5⟩] 0
    [Photon.init ⟨406, 301⟩ 0, Photon.init ⟨400, 307⟩ (Real.pi / 2),
     Photon.init ⟨394, 301⟩ Real.pi, Photon.init ⟨400, 295⟩ (3 * Real.pi / 2)]
    ⟨rngHalf.uni, rngHalf.jit, 0, 4⟩ ⟨⟨407, 301⟩, 0, 0⟩
    ⟨rngHalf.uni, rngHalf.jit, 0, 6⟩ (by simp) (blitP0_eval 0 4)]
  show movePhotonsFrom ⟨0, 1, 90, 800, 600⟩ [⟨⟨400, 300⟩, 5⟩] 1
      [⟨⟨407, 301⟩, 0, 0⟩, Photon.init ⟨400, 307⟩ (Real.pi / 2),
       Photon.init ⟨394, 301⟩ Real.pi,
       Photon.init ⟨400, 295⟩ (3 * Real.pi / 2)]
      ⟨rngHalf.uni, rngHalf.jit, 0, 6⟩ = _
  rw [movePhotonsFrom_keep ⟨0, 1, 90, 800, 600⟩ [⟨⟨400, 300⟩, 5⟩] 1
    [⟨⟨407, 301⟩, 0, 0⟩, Photon.init ⟨400, 307⟩ (Real.pi / 2),
     Photon.init ⟨394, 301⟩ Real.pi, Photon.init ⟨400, 295⟩ (3 * Real.pi / 2)]
    ⟨rngHalf.uni, rngHalf.jit, 0, 6⟩ ⟨⟨400, 308⟩, Real.pi / 2, 0⟩
    ⟨rngHalf.uni, rngHalf.jit, 0, 8⟩ (by simp) (blitP1_eval 0 6)]
  show movePhotonsFrom ⟨0, 1, 90, 800, 600⟩ [⟨⟨400, 300⟩, 5⟩] 2
      [⟨⟨407, 301⟩, 0, 0⟩, ⟨⟨400, 308⟩, Real.pi / 2, 0⟩,
       Photon.init ⟨394, 301⟩ Real.pi,
       Photon.init ⟨400, 295⟩ (3 * Real.pi / 2)]
      ⟨rngHalf.uni, rngHalf.jit, 0, 8⟩ = _
  rw [movePhotonsFrom_keep ⟨0, 1, 90, 800, 600⟩ [⟨⟨400, 300⟩, 5⟩] 2
    [⟨⟨407, 301⟩, 0, 0⟩, ⟨⟨400, 308⟩, Real.pi / 2, 0⟩,
     Photon.init ⟨394, 301⟩ Real.pi, Photon.init ⟨400, 295⟩ (3 * Real.pi / 2)]
    ⟨rngHalf.uni, rngHalf.jit, 0, 8⟩ ⟨⟨393, 301⟩, Real.pi, 0⟩
    ⟨rngHalf.uni, rngHalf.jit, 0, 10⟩ (by simp) (blitP2_eval 0 8)]
  show movePhotonsFrom ⟨0, 1, 90, 800, 600⟩ [⟨⟨400, 300⟩, 5⟩] 3
      [⟨⟨407, 301⟩, 0, 0⟩, ⟨⟨400, 308⟩, Real.pi / 2, 0⟩,
       ⟨⟨393, 301⟩, Real.pi, 0⟩, Photon.init ⟨400, 295⟩ (3 * Real.pi / 2)]
      ⟨rngHalf.uni, rngHalf.jit, 0, 10⟩ = _
  rw [movePhotonsFrom_keep ⟨0, 1, 90, 800, 600⟩ [⟨⟨400, 300⟩, 5⟩] 3
    [⟨⟨407, 301⟩, 0, 0⟩, ⟨⟨400, 308⟩, Real.pi / 2, 0⟩,
     ⟨⟨393, 301⟩, Real.pi, 0⟩, Photon.init ⟨400, 295⟩ (3 * Real.pi / 2)]
    ⟨rngHalf.uni, rngHalf.jit, 0, 10⟩ ⟨⟨400, 294⟩, 3 * Real.pi / 2, 0⟩
    ⟨rngHalf.uni, rngHalf.jit, 0, 12⟩ (by simp) (blitP3_eval 0 10)]
  show movePhotonsFrom ⟨0, 1, 90, 800, 600⟩ [⟨⟨400, 300⟩, 5⟩] 4
      [⟨⟨407, 301⟩, 0, 0⟩, ⟨⟨400, 308⟩, Real.pi / 2, 0⟩,
       ⟨⟨393, 301⟩, Real.pi, 0⟩, ⟨⟨400, 294⟩, 3 * Real.pi / 2, 0⟩]
      ⟨rngHalf.uni, rngHalf.jit, 0, 12⟩ = _
  rw [movePhotonsFrom_done _ _ _ _ _ (by simp)]

/-- Claim C2, counterexample: the first photon of the C2 generation is
spawned at `(406, 301)` — not at `center + 6·(cos 0, sin 0) = (406, 300)` —
so its distance from the emitter center is `√37 ≠ 6`: the source adds a
stray `+ 1` to the y coordinate of every spawn position. -/
theorem claim_C2_counterexample :
    (genPhotonsAux ⟨400, 300⟩ 5 (raysDegrees 90) rngHalf).1.head?
      = some (Photon.init ⟨406, 301⟩ 0) ∧
    Point.distance ⟨400, 300⟩ ⟨406, 301⟩ ≠ 6 ∧
    (⟨406, 301⟩ : Point)
      ≠ ⟨400 + ((5 : ℝ) + 1) * Real.cos 0, 300 + ((5 : ℝ) + 1) * Real.sin 0⟩ := by
  refine ⟨by rw [gen_eval]; rfl, ?_, ?_⟩
  · intro h
    have h37 : Point.distance ⟨400, 300⟩ ⟨406, 301⟩ ^ 2 = 37 := by
      unfold Point.distance
      rw [Real.sq_sqrt (by norm_num)]
      norm_num
    rw [h] at h37
    norm_num at h37
  · intro h
    rw [Point.mk.injEq] at h
    have h2 := h.2
    rw [Real.sin_zero] at h2
    norm_num at h2

/-- Claim C2, amended: in the scenario (one emitter at `(400, 300)`, radius
5, spawn period 1, 90° step, absorption 0, zero jitter), one emit tick
spawns exactly 4 photons headed 0, π/2, π, 3π/2; each is spawned at
`center + (radius+1)·(cos θ, sin θ) + (0, 1)` — one unit BELOW the claimed
point — and is advanced one unit along its heading in the same tick, so
after the tick the 4 photons sit at `(407, 301)`, `(400, 308)`,
`(393, 301)`, `(400, 294)`. -/
theorem claim_C2_amended :
    (genPhotonsAux ⟨400, 300⟩ 5 (raysDegrees 90) rngHalf).1
      = [Photon.init ⟨406, 301⟩ 0, Photon.init ⟨400, 307⟩ (Real.pi / 2),
         Photon.init ⟨394, 301⟩ Real.pi,
         Photon.init ⟨400, 295⟩ (3 * Real.pi / 2)] ∧
    (genPhotonsAux ⟨400, 300⟩ 5 (raysDegrees 90) rngHalf).1.length = 4 ∧
    ((406 : ℝ) = 400 + ((5 : ℝ) + 1) * Real.cos 0 ∧
     (301 : ℝ) = 300 + ((5 : ℝ) + 1) * Real.sin 0 + 1) ∧
    emit ⟨0, 1, 90, 800, 600⟩ [⟨⟨400, 300⟩, 5⟩]
        ⟨⟨400, 300⟩, 5, false, 0, true⟩ [] rngHalf
      = (⟨⟨400, 300⟩, 5, false, 0, true⟩,
         [⟨⟨407, 301⟩, 0, 0⟩, ⟨⟨400, 308⟩, Real.pi / 2, 0⟩,
          ⟨⟨393, 301⟩, Real.pi, 0⟩, ⟨⟨400, 294⟩, 3 * Real.pi / 2, 0⟩],
         ⟨rngHalf.uni, rngHalf.jit, 0, 12⟩) := by
  refine ⟨by rw [gen_eval], by rw [gen_eval]; rfl, ⟨by norm_num, by norm_num⟩, ?_⟩
  unfold emit
  rw [if_pos (by norm_num)]
  rw [if_pos rfl]
  dsimp only
  rw [gen_eval]
  dsimp only
  rw [List.nil_append, moveGen_eval]

/-- Claim C6: in one `emit` call, (a) when the incremented tick counter is
not a multiple of the spawn period, no photons are spawned and the owned
collection is just advanced; (b) the same holds on a period boundary when
the emitter is disabled (the counter still resets); (c) on a period
boundary with the emitter enabled, exactly `⌈360/s⌉` new photons
(`(360+s-1)/s` in natural division) are appended before the collection is
advanced.  Iterating from `ticks = 0` this gives a spawn of `⌈360/s⌉`
photons exactly every `N`-th tick and zero in between. -/
theorem claim_C6 (cfg : Config) (figs : List CircleData) (E : SourceState)
    (photons : List Photon) (r : RNG) :
    ((E.ticks + 1) % cfg.frequency ≠ 0 →
      emit cfg figs E photons r
        = ({ E with ticks := E.ticks + 1 },
           move_photons cfg figs photons r)) ∧
    ((E.ticks + 1) % cfg.frequency = 0 → E.enabled = false →
      emit cfg figs E photons r
        = ({ E with ticks := 0 }, move_photons cfg figs photons r)) ∧
    ((E.ticks + 1) % cfg.frequency = 0 → E.enabled = true →
      0 < cfg.rays_step →
      (genPhotonsAux E.mid E.radius (raysDegrees cfg.rays_step) r).1.length
          = (360 + cfg.rays_step - 1) / cfg.rays_step ∧
      emit cfg figs E photons r
        = ({ E with ticks := 0 },
           move_photons cfg figs
             (photons
               ++ (genPhotonsAux E.mid E.radius
                     (raysDegrees cfg.rays_step) r).1)
             (genPhotonsAux E.mid E.radius (raysDegrees cfg.rays_step) r).2))
    := by
  refine ⟨?_, ?_, ?_⟩
  · intro hne
    unfold emit
    rw [if_neg hne]
  · intro heq hdis
    unfold emit
    rw [if_pos heq, if_neg (by rw [hdis]; simp)]
  · intro heq hen _
    refine ⟨by rw [genPhotonsAux_length, raysDegrees_length], ?_⟩
    unfold emit
    rw [if_pos heq, if_pos hen]

/-- Witness for C6: with spawn period 2 and 90° step, the first tick (odd)
spawns nothing and only advances, while the second tick (period boundary,
enabled) spawns `⌈360/90⌉ = 4` photons before advancing. -/
theorem claim_C6_witness :
    (emit ⟨0, 2, 90, 100, 100⟩ [] ⟨⟨0, 0⟩, 5, false, 0, true⟩ [] rngHalf
      = (⟨⟨0, 0⟩, 5, false, 1, true⟩,
         move_photons ⟨0, 2, 90, 100, 100⟩ [] [] rngHalf)) ∧
    ((genPhotonsAux (⟨0, 0⟩ : Point) (5 : ℤ) (raysDegrees 90) rngHalf).1.length
        = (360 + 90 - 1) / 90 ∧
     emit ⟨0, 2, 90, 100, 100⟩ [] ⟨⟨0, 0⟩, 5, false, 1, true⟩ [] rngHalf
      = (⟨⟨0, 0⟩, 5, false, 0, true⟩,
         move_photons ⟨0, 2, 90, 100, 100⟩ []
           ([] ++ (genPhotonsAux (⟨0, 0⟩ : Point) (5 : ℤ)
                     (raysDegrees 90) rngHalf).1)
           (genPhotonsAux (⟨0, 0⟩ : Point) (5 : ℤ)
             (raysDegrees 90) rngHalf).2)) := by
  constructor
  · exact (claim_C6 ⟨0, 2, 90, 100, 100⟩ [] ⟨⟨0, 0⟩, 5, false, 0, true⟩ []
      rngHalf).1 (by norm_num)
  · exact (claim_C6 ⟨0, 2, 90, 100, 100⟩ [] ⟨⟨0, 0⟩, 5, false, 1, true⟩ []
      rngHalf).2.2 (by norm_num) rfl (by norm_num)

/-- Claim C9, counterexample: two distinct emitters A at `(100, 100)` and B
at `(200, 200)` share the single class-level photon list; spawning a
generation on A (index 0) changes the collection observed by B (index 1) —
ownership is not exclusive. -/
theorem claim_C9_counterexample :
    ownedPhotons (generateOn
        ⟨[⟨⟨100, 100⟩, 5, false, 0, true⟩, ⟨⟨200, 200⟩, 5, false, 0, true⟩],
         []⟩ 0 ⟨0, 20, 90, 800, 600⟩ rngHalf).1 1
      ≠ ownedPhotons
        ⟨[⟨⟨100, 100⟩, 5, false, 0, true⟩, ⟨⟨200, 200⟩, 5, false, 0, true⟩],
         []⟩ 1 := by
  intro h
  unfold ownedPhotons generateOn at h
  rw [show ([⟨⟨100, 100⟩, 5, false, 0, true⟩,
      ⟨⟨200, 200⟩, 5, false, 0, true⟩] : List SourceState).get? 0
    = some ⟨⟨100, 100⟩, 5, false, 0, true⟩ from rfl] at h
  dsimp only at h
  have hlen := congrArg List.length h
  rw [List.nil_append, genPhotonsAux_length] at hlen
  rw [raysDegrees_length] at hlen
  norm_num at hlen

/-- Claim C9, amended: all `PhotonSource` instances observe the one
class-level photon list (mutated only in place), so a generation spawned
through the emitter at index `i` is appended to the collection observed by
EVERY index `j`, not only `i`. -/
theorem claim_C9_amended (sc : Scene) (cfg : Config) (r : RNG) (i : ℕ)
    (E : SourceState) (h : sc.sources.get? i = some E) (j : ℕ) :
    ownedPhotons (generateOn sc i cfg r).1 j
      = ownedPhotons sc j
        ++ (genPhotonsAux E.mid E.radius (raysDegrees cfg.rays_step) r).1 := by
  unfold ownedPhotons generateOn
  rw [h]

/-- Witness for the amended C9: spawning on emitter 0 appends the new
generation to the collection observed by emitter 1. -/
theorem claim_C9_witness :
    ownedPhotons (generateOn
        ⟨[⟨⟨100, 100⟩, 5, false, 0, true⟩, ⟨⟨200, 200⟩, 5, false, 0, true⟩],
         []⟩ 0 ⟨0, 20, 90, 800, 600⟩ rngHalf).1 1
      = ownedPhotons
          ⟨[⟨⟨100, 100⟩, 5, false, 0, true⟩, ⟨⟨200, 200⟩, 5, false, 0, true⟩],
           []⟩ 1
        ++ (genPhotonsAux (⟨100, 100⟩ : Point) (5 : ℤ)
              (raysDegrees 90) rngHalf).1 :=
  claim_C9_amended
    ⟨[⟨⟨100, 100⟩, 5, false, 0, true⟩, ⟨⟨200, 200⟩, 5, false, 0, true⟩], []⟩
    ⟨0, 20, 90, 800, 600⟩ rngHalf 0 ⟨⟨100, 100⟩, 5, false, 0, true⟩ rfl 1

end PhotonSim
